import Mathlib

/-!
Verification of the `micromail` SMTP client library.

Rust strings are modelled as lists of characters (`Str`).  The Rust
standard-library operations the code uses (`trim`, `lines`, `contains`,
`replace`, `split`, `starts_with`, `ends_with`, `to_uppercase`,
`parse::<u16>`) are embedded below with their Rust semantics; Unicode
case mapping is modelled character-wise (ASCII case mapping), which is
faithful on every input the code sends or receives over SMTP.

Stateful code (the SMTP session in `mail.rs` / `connection.rs`) is
embedded by explicit state passing over an abstract stream model: the
transport primitives `secure_send` / `secure_read` / `secure_read_qued`
and the TLS stream replacement of `establish_tls` are supplied as
functions on an abstract stream state, so the theorems quantify over
every possible transport behaviour.
-/

namespace Micromail

/-- A Rust string, modelled as its sequence of characters. -/
abbrev Str := List Char

/-- Characters of a Lean string literal, used to write concrete inputs. -/
def strL (s : String) : Str := s.data

/-- The CRLF line terminator. -/
def crlf : Str := ['\r', '\n']

/-- Rust `char::is_whitespace`: the Unicode White_Space property, by code point. -/
def rustIsWhitespace (c : Char) : Bool :=
  let n := c.toNat
  (0x09 ≤ n && n ≤ 0x0d) || n = 0x20 || n = 0x85 || n = 0xa0 || n = 0x1680 ||
  (0x2000 ≤ n && n ≤ 0x200a) || n = 0x2028 || n = 0x2029 || n = 0x202f ||
  n = 0x205f || n = 0x3000

/-- Rust `char::is_control`: the Unicode `Cc` category. -/
def rustIsControl (c : Char) : Bool :=
  c.toNat < 0x20 || (0x7f ≤ c.toNat && c.toNat ≤ 0x9f)

/-- Rust `str::trim`: strip leading and trailing whitespace. -/
def rustTrim (s : Str) : Str :=
  ((s.dropWhile rustIsWhitespace).reverse.dropWhile rustIsWhitespace).reverse

/-- Rust `str::to_uppercase`, modelled character-wise (ASCII case map). -/
def rustToUpper (s : Str) : Str := s.map Char.toUpper

/-- Does `s` start with the pattern `pat`?  Rust `str::starts_with`. -/
def strStarts : Str → Str → Bool
  | _, [] => true
  | [], _ :: _ => false
  | c :: cs, p :: ps => c = p && strStarts cs ps

/-- Does `s` end with the pattern `pat`?  Rust `str::ends_with`. -/
def strEnds (s pat : Str) : Bool := strStarts s.reverse pat.reverse

/-- Does `s` contain `pat` as a contiguous substring?  Rust `str::contains`. -/
def strHas : Str → Str → Bool
  | [], pat => strStarts [] pat
  | s@(_ :: t), pat => strStarts s pat || strHas t pat

/-- Rust `str::replace(c, rep)` for a single-character pattern `c`: every
occurrence of `c` becomes `rep`. -/
def replaceChar : Str → Char → Str → Str
  | [], _, _ => []
  | x :: xs, c, rep => (if x = c then rep else [x]) ++ replaceChar xs c rep

/-- Occurrences of a character in a string. -/
def countChar (c : Char) : Str → Nat
  | [] => 0
  | x :: xs => (if x = c then 1 else 0) + countChar c xs

/-- Splitting at every occurrence of a separator character; this is the
semantics of Rust `str::split(sep)` (always returns `count sep + 1` pieces). -/
def splitOnChar (sep : Char) : Str → List Str
  | [] => [[]]
  | c :: cs =>
    match splitOnChar sep cs with
    | [] => [[c]]
    | p :: ps => if c = sep then [] :: p :: ps else (c :: p) :: ps

/-- Strip one trailing carriage return, as Rust `str::lines` does on each
line that was terminated by a newline. -/
def stripCr (l : Str) : Str := if l.getLast? = some '\r' then l.dropLast else l

/-- Rust `str::lines`: split at `\n`, strip a trailing `\r` from each
terminated line, and drop the final piece when it is empty (so a trailing
newline produces no extra empty line and the empty string has no lines). -/
def rustLines (s : Str) : List Str :=
  let ps := splitOnChar '\n' s
  let init := ps.dropLast.map stripCr
  match ps.getLast? with
  | none => []
  | some l => if l = [] then init else init ++ [l]

/-- Horizontal whitespace in `utils.rs`: whitespace other than `\n`/`\r`
(the predicate `c.is_whitespace() && c != '\n' && c != '\r'`). -/
def hws (c : Char) : Bool := rustIsWhitespace c && c ≠ '\n' && c ≠ '\r'

/-- Rust `str::trim_end_matches` for the horizontal-whitespace predicate. -/
def trimEndHws (s : Str) : Str := (s.reverse.dropWhile hws).reverse

/-- The stateful whitespace-collapsing filter of `canonicalize_body_relaxed`
(`utils.rs` lines 62-71): drop a horizontal-whitespace character when the
previous kept character was also horizontal whitespace. -/
def collapseWs : Bool → Str → Str
  | _, [] => []
  | prev, c :: cs =>
    if hws c && prev then collapseWs prev cs
    else c :: collapseWs (hws c) cs

/-- Per-line processing of `canonicalize_body_relaxed`: trim trailing
horizontal whitespace, collapse whitespace runs, replace tabs by spaces. -/
def processLine (l : Str) : Str :=
  replaceChar (collapseWs false (trimEndHws l)) '\t' [' ']

/-- The accumulation loop of `canonicalize_body_relaxed` (`utils.rs` lines
57-80): every line gets a CRLF except the last one when its processed form
is empty. -/
def buildBody : List Str → Str
  | [] => []
  | [l] => let p := processLine l; if p = [] then p else p ++ crlf
  | l :: l' :: ls => processLine l ++ crlf ++ buildBody (l' :: ls)

/-- Is a line wholly blank, i.e. empty after `trim_matches` with the
horizontal-whitespace predicate (`utils.rs` line 48)? -/
def isBlankLine (l : Str) : Bool := l.all hws

/-- Embedding of `utils::canonicalize_body_relaxed` (`utils.rs` lines 38-100). -/
def canonicalize_body_relaxed (body : Str) : Str :=
  if body = [] then crlf
  else
    let lines := rustLines body
    let trailingEmpty := (lines.reverse.takeWhile isBlankLine).length
    let effective := lines.length - trailingEmpty
    let result := buildBody (lines.take effective)
    if result = [] && body ≠ [] then crlf
    else if result = [] && body = [] then []
    else result

/-- Embedding of `utils::ensure_crlf` (`utils.rs` lines 135-141). -/
def ensure_crlf (s : Str) : Str :=
  if !strHas s crlf then replaceChar s '\n' crlf else s

/-- Embedding of `utils::sanitize_string_lite` (`utils.rs` lines 4-8). -/
def sanitize_string_lite (s : Str) : Str :=
  s.map fun c => if rustIsControl c && c ≠ '\n' && c ≠ '\r' then '.' else c

/-- Errors of `error.rs`, with the variant payloads as they are used in
`mail.rs` and `connection.rs` (`SmtpError`/`AuthError` carry the server
code and text).  `IoError` abstracts the wrapped `std::io::Error` as text. -/
inductive Error where
  | NoMxRecords
  | ConnectionFailed
  | SmtpError (code : Nat) (message : Str)
  | TlsError (message : Str)
  | IoError (message : Str)
  | Timeout
  | InvalidMailContent (message : Str)
  | AuthError (code : Option Nat) (message : Str)
  | Other (message : Str)
  deriving DecidableEq

/-- A parsed SMTP reply: `io::HttpStatusMessage` (`io.rs` lines 175-180).
The `u16` code is modelled as a natural number. -/
structure HttpStatusMessage where
  code : Nat
  message : Str
  deriving DecidableEq

/-- Rust `str::parse::<u16>`: an optional leading `+`, then one or more
ASCII digits, value below 2^16; anything else fails. -/
def parseU16 (s : Str) : Option Nat :=
  let digits := match s with | '+' :: rest => rest | _ => s
  if digits = [] then none
  else if digits.all Char.isDigit then
    let v := digits.foldl (fun a c => a * 10 + (c.toNat - 48)) 0
    if v < 65536 then some v else none
  else none

/-- Embedding of `HttpStatusMessage::from_str` (`io.rs` lines 192-204):
trim, require at least four characters, parse the first three as the code,
and keep everything from index 4 on as the message (index 3 is dropped). -/
def HttpStatusMessage.from_str (s : Str) : Option HttpStatusMessage :=
  let t := rustTrim s
  if t.length < 4 then none
  else
    match parseU16 (t.take 3) with
    | none => none
    | some code => some ⟨code, t.drop 4⟩

/-- Embedding of `HttpStatusMessage::is_http_ok` (`io.rs` lines 207-209). -/
def HttpStatusMessage.is_http_ok (r : HttpStatusMessage) : Bool :=
  decide (r.code < 354) && decide (r.code ≥ 200)

/-- Embedding of `HttpStatusMessage::is_starttls` (`io.rs` lines 212-214). -/
def HttpStatusMessage.is_starttls (r : HttpStatusMessage) : Bool :=
  r.is_http_ok && strHas (rustToUpper r.message) (strL "STARTTLS")

/-- The mock server states of `io::SmtpState` (`io.rs` lines 15-28). -/
inductive SmtpState where
  | Initial
  | EhloSent
  | StartTlsSent
  | StartTlsDone
  | AuthLoginSent
  | AuthUserSent
  | AuthPassSent
  | MailFromSent
  | RcptToSent
  | DataSent
  | MessageReceived
  | QuitSent
  deriving DecidableEq

/-- The derived `Debug` rendering of `SmtpState`, used in the mock's
generic 500 reply. -/
def smtpStateName : SmtpState → Str
  | .Initial => strL "Initial"
  | .EhloSent => strL "EhloSent"
  | .StartTlsSent => strL "StartTlsSent"
  | .StartTlsDone => strL "StartTlsDone"
  | .AuthLoginSent => strL "AuthLoginSent"
  | .AuthUserSent => strL "AuthUserSent"
  | .AuthPassSent => strL "AuthPassSent"
  | .MailFromSent => strL "MailFromSent"
  | .RcptToSent => strL "RcptToSent"
  | .DataSent => strL "DataSent"
  | .MessageReceived => strL "MessageReceived"
  | .QuitSent => strL "QuitSent"

/-- The mutable part of `io::MockStream` that `process_command` reads and
writes: the protocol state and the simulated-TLS flag. -/
structure MockState where
  smtpState : SmtpState
  tlsActive : Bool
  deriving DecidableEq

/-- Embedding of `MockStream::process_command` (`io.rs` lines 55-135).
The input chunk is modelled as its decoded character sequence; the
returned list is the server replies pushed onto the response queue, in
order.  The match arms appear in source order; arms guarded by
`starts_with`/`ends_with` tests on `command` (the trimmed, uppercased
input) become an if-chain per state. -/
def processCommand (st : MockState) (input : Str) : MockState × List Str :=
  let command := rustToUpper (rustTrim input)
  let default500 : MockState × List Str :=
    if st.smtpState ≠ .DataSent then
      (st, [strL "500 Unknown command or state error: " ++ command ++
            strL " in " ++ smtpStateName st.smtpState ++ crlf])
    else (st, [])
  match st.smtpState with
  | .Initial =>
    if strStarts command (strL "EHLO") then
      ({ st with smtpState := .EhloSent },
       [strL "250-localhost.testmode Hello\r\n", strL "250-AUTH LOGIN PLAIN\r\n"] ++
       (if !st.tlsActive then [strL "250 STARTTLS\r\n"] else [strL "250 OK\r\n"]))
    else default500
  | .EhloSent =>
    if strStarts command (strL "STARTTLS") && !st.tlsActive then
      ({ st with smtpState := .StartTlsSent }, [strL "220 Go ahead\r\n"])
    else if strStarts command (strL "AUTH LOGIN") then
      ({ st with smtpState := .AuthUserSent }, [strL "334 VXNlcm5hbWU6\r\n"])
    else if strStarts command (strL "MAIL FROM") then
      ({ st with smtpState := .MailFromSent },
       if strHas command (strL "<trigger550@example.com>") then
         [strL "550 No such user\r\n"]
       else [strL "250 OK\r\n"])
    else if strStarts command (strL "QUIT") then
      ({ st with smtpState := .QuitSent }, [strL "221 Bye\r\n"])
    else default500
  | .StartTlsSent =>
    if strStarts command (strL "EHLO") then
      ({ smtpState := .EhloSent, tlsActive := true },
       [strL "250-localhost.testmode Hello (TLS)\r\n", strL "250 AUTH LOGIN PLAIN\r\n"])
    else default500
  | .AuthUserSent =>
    ({ st with smtpState := .AuthPassSent }, [strL "334 UGFzc3dvcmQ6\r\n"])
  | .AuthPassSent =>
    ({ st with smtpState := .EhloSent }, [strL "235 Authentication succeeded\r\n"])
  | .MailFromSent =>
    if strStarts command (strL "RCPT TO") then
      ({ st with smtpState := .RcptToSent },
       if strHas command (strL "<trigger551@example.com>") then
         [strL "551 User not local\r\n"]
       else [strL "250 OK\r\n"])
    else default500
  | .RcptToSent =>
    if strStarts command (strL "DATA") then
      ({ st with smtpState := .DataSent },
       [strL "354 End data with <CR><LF>.<CR><LF>\r\n"])
    else default500
  | .DataSent =>
    if strEnds command (strL "\r\n.\r\n") then
      ({ st with smtpState := .MessageReceived }, [strL "250 OK: message queued\r\n"])
    else (st, [])
  | .MessageReceived =>
    if strStarts command (strL "QUIT") then
      ({ st with smtpState := .QuitSent }, [strL "221 Bye\r\n"])
    else default500
  | .StartTlsDone => default500
  | .AuthLoginSent => default500
  | .QuitSent => default500

/-- Embedding of `Mailer::extract_domain` (`mail.rs` lines 343-350):
split at `@`, demand exactly two parts, return the second. -/
def extract_domain (email : Str) : Except Error Str :=
  let parts := splitOnChar '@' email
  if parts.length = 2 then Except.ok (parts.getD 1 [])
  else Except.error (.InvalidMailContent (strL "Invalid email address: " ++ email))

/-- Decimal rendering of a reply code, as in the derived `Debug` output. -/
def natStr (n : Nat) : Str := (Nat.repr n).data

/-- The `Debug` rendering of `HttpStatusMessage` (`io.rs` lines 182-186),
pushed onto the session log after each read. -/
def logResponse (r : HttpStatusMessage) : Str :=
  strL "RESPONSE: " ++ natStr r.code ++ [' '] ++ r.message

/-- An abstract transport, standing for a `Connected` stream of
`connection.rs`.  `send`/`read`/`readQued` embed `io::secure_send`,
`io::secure_read` and `io::secure_read_qued`; since the stream is behind
`&mut`, each operation returns the successor state even on failure.
`isSecure` embeds `Connected::is_secure`, and `upgrade` abstracts the
stream replacement of `establish_tls` (`connection.rs` lines 177-210): a
mock stream flips its simulated-TLS flag, a real stream may fail the TLS
client setup with a `TlsError`. -/
structure StreamModel (σ : Type) where
  send : σ → Str → Option Error × σ
  read : σ → Except Error HttpStatusMessage × σ
  readQued : σ → Except Error (List HttpStatusMessage) × σ
  isSecure : σ → Bool
  upgrade : σ → Except Error σ

/-- The EHLO-then-HELO fallback loop of `connection::send_ehlo`
(`connection.rs` lines 141-155): a failed write or read moves on to the
next command word, a successful read of the queued replies reports
whether any of them advertises STARTTLS. -/
def sendEhloLoop (M : StreamModel σ) (sourceDomain : Str) :
    List Str → σ → Except Error Bool × σ
  | [], s => (Except.ok false, s)
  | ty :: rest, s =>
    let helo := ty ++ [' '] ++ sourceDomain ++ crlf
    match M.send s helo with
    | (some _, s) => sendEhloLoop M sourceDomain rest s
    | (none, s) =>
      match M.readQued s with
      | (Except.ok messages, s) =>
        (Except.ok (messages.any HttpStatusMessage.is_starttls), s)
      | (Except.error _, s) => sendEhloLoop M sourceDomain rest s

/-- Embedding of `connection::send_ehlo` (`connection.rs` lines 122-158).
Unless reconnecting, the initial greeting is read first and a non-success
greeting aborts with an `SmtpError` carrying the greeting's code.  The
function never writes the session log (its `log` parameter is unused in
the source), so the log is not threaded through it. -/
def send_ehlo (M : StreamModel σ) (s : σ) (sourceDomain : Str)
    (isReconnect : Bool) : Except Error Bool × σ :=
  if !isReconnect then
    match M.read s with
    | (Except.error e, s) => (Except.error e, s)
    | (Except.ok response, s) =>
      if !response.is_http_ok then
        (Except.error (.SmtpError response.code
          (strL "Server did not send welcome message: " ++ response.message)), s)
      else sendEhloLoop M sourceDomain [strL "EHLO", strL "HELO"] s
  else sendEhloLoop M sourceDomain [strL "EHLO", strL "HELO"] s

/-- Embedding of `connection::establish_tls` (`connection.rs` lines
161-214): no-op on an already-secure stream, otherwise STARTTLS, a
mandatory 220 reply, then the stream upgrade.  The returned flag is the
source's `reconnected` flag. -/
def establish_tls (M : StreamModel σ) (s : σ) : Except Error Bool × σ :=
  if M.isSecure s then (Except.ok false, s)
  else
    match M.send s (strL "STARTTLS\r\n") with
    | (some e, s) => (Except.error e, s)
    | (none, s) =>
      match M.read s with
      | (Except.error e, s) => (Except.error e, s)
      | (Except.ok response, s) =>
        if !response.is_http_ok || response.code != 220 then
          (Except.error (.SmtpError response.code
            (strL "STARTTLS command failed or got unexpected response: " ++
             response.message)), s)
        else
          match M.upgrade s with
          | Except.error e => (Except.error e, s)
          | Except.ok s => (Except.ok true, s)

/-- Embedding of `Mailer::authenticate` (`mail.rs` lines 353-373).  The
base64 encoder is passed in as a function `b64`. -/
def authenticate (M : StreamModel σ) (b64 : Str → Str) (s : σ)
    (username password : Str) : Except Error Unit × σ :=
  match M.send s (strL "AUTH LOGIN\r\n") with
  | (some e, s) => (Except.error e, s)
  | (none, s) =>
  match M.read s with
  | (Except.error e, s) => (Except.error e, s)
  | (Except.ok _, s) =>
  match M.send s (b64 username ++ crlf) with
  | (some e, s) => (Except.error e, s)
  | (none, s) =>
  match M.read s with
  | (Except.error e, s) => (Except.error e, s)
  | (Except.ok _, s) =>
  match M.send s (b64 password ++ crlf) with
  | (some e, s) => (Except.error e, s)
  | (none, s) =>
  match M.read s with
  | (Except.error e, s) => (Except.error e, s)
  | (Except.ok response, s) =>
    if !response.is_http_ok then
      (Except.error (.AuthError (some response.code) response.message), s)
    else (Except.ok (), s)

/-- Embedding of `Mailer::process_mail_internal` (`mail.rs` lines
393-456): the MAIL FROM / RCPT TO / DATA / payload / terminator sequence,
threading the session log (`self.log`) explicitly. -/
def process_mail_internal (M : StreamModel σ) (s : σ) (log : List Str)
    (mailFrom mailTo mail : Str) : Except Error Unit × σ × List Str :=
  let msg := strL "MAIL FROM:<" ++ mailFrom ++ strL ">\r\n"
  let log := log ++ [sanitize_string_lite msg]
  match M.send s msg with
  | (some e, s) => (Except.error e, s, log)
  | (none, s) =>
  match M.read s with
  | (Except.error e, s) => (Except.error e, s, log)
  | (Except.ok response, s) =>
  let log := log ++ [logResponse response, []]
  if !response.is_http_ok then
    (Except.error (.SmtpError response.code
      (strL "MAIL FROM failed: " ++ response.message)), s, log)
  else
  let msg := strL "RCPT TO:<" ++ mailTo ++ strL ">\r\n"
  let log := log ++ [sanitize_string_lite msg]
  match M.send s msg with
  | (some e, s) => (Except.error e, s, log)
  | (none, s) =>
  match M.read s with
  | (Except.error e, s) => (Except.error e, s, log)
  | (Except.ok response, s) =>
  let log := log ++ [logResponse response, []]
  if !response.is_http_ok then
    (Except.error (.SmtpError response.code
      (strL "RCPT TO failed: " ++ response.message)), s, log)
  else
  let msg := strL "DATA\r\n"
  let log := log ++ [sanitize_string_lite msg]
  match M.send s msg with
  | (some e, s) => (Except.error e, s, log)
  | (none, s) =>
  match M.read s with
  | (Except.error e, s) => (Except.error e, s, log)
  | (Except.ok response, s) =>
  let log := log ++ [logResponse response, []]
  if response.code != 354 then
    (Except.error (.SmtpError response.code
      (strL "DATA command failed: " ++ response.message)), s, log)
  else
  let log := log ++ (rustLines mail).map sanitize_string_lite ++ [[]]
  match M.send s mail with
  | (some e, s) => (Except.error e, s, log)
  | (none, s) =>
  match M.send s (strL "\r\n.\r\n") with
  | (some e, s) => (Except.error e, s, log)
  | (none, s) =>
  match M.read s with
  | (Except.error e, s) => (Except.error e, s, log)
  | (Except.ok response, s) =>
  let log := log ++ [logResponse response, []]
  if !response.is_http_ok then
    (Except.error (.SmtpError response.code
      (strL "Mail content sending failed: " ++ response.message)), s, log)
  else (Except.ok (), s, log)

/-- Embedding of `Mailer::process_mail` (`mail.rs` lines 376-390): run the
inner transaction, then always send QUIT (result of the send dropped),
push a QUIT entry on the log, and return the inner result. -/
def process_mail (M : StreamModel σ) (s : σ) (log : List Str)
    (mailFrom mailTo mail : Str) : Except Error Unit × σ × List Str :=
  let result := process_mail_internal M s log mailFrom mailTo mail
  let afterQuit := (M.send result.2.1 (strL "QUIT\r\n")).2
  (result.1, afterQuit, result.2.2 ++ [strL "QUIT"])

/-- The configuration fields of `config::Config` consumed by the
post-connection part of `Mailer::send_sync`. -/
structure ConfigModel where
  domain : Str
  useTls : Bool
  auth : Option (Str × Str)

/-- The authentication-then-transaction tail of `Mailer::send_sync`
(`mail.rs` lines 323-339). -/
def sendSyncAuthStep (M : StreamModel σ) (cfg : ConfigModel) (b64 : Str → Str)
    (s : σ) (log : List Str) (mailFrom mailTo formattedMail : Str) :
    Except Error Unit × σ × List Str :=
  match cfg.auth with
  | none => process_mail M s log mailFrom mailTo formattedMail
  | some (u, p) =>
    match authenticate M b64 s u p with
    | (Except.error e, s) => (Except.error e, s, log)
    | (Except.ok _, s) => process_mail M s log mailFrom mailTo formattedMail

/-- The TLS-upgrade step of `Mailer::send_sync` (`mail.rs` lines
306-321): upgrade when requested and advertised, re-EHLO on reconnect. -/
def sendSyncTlsStep (M : StreamModel σ) (cfg : ConfigModel) (b64 : Str → Str)
    (s : σ) (log : List Str) (starttls : Bool)
    (mailFrom mailTo formattedMail : Str) :
    Except Error Unit × σ × List Str :=
  if cfg.useTls && starttls then
    match establish_tls M s with
    | (Except.error e, s) => (Except.error e, s, log)
    | (Except.ok reconnected, s) =>
      if reconnected then
        match send_ehlo M s cfg.domain true with
        | (Except.error e, s) => (Except.error e, s, log)
        | (Except.ok _, s) =>
          sendSyncAuthStep M cfg b64 s log mailFrom mailTo formattedMail
      else sendSyncAuthStep M cfg b64 s log mailFrom mailTo formattedMail
  else sendSyncAuthStep M cfg b64 s log mailFrom mailTo formattedMail

/-- Embedding of the post-connection body of `Mailer::send_sync`
(`mail.rs` lines 298-339): EHLO negotiation (greeting included), optional
TLS upgrade, optional authentication, then the mail transaction.  The
already-formatted message is passed in (formatting draws on the clock and
RNG, which are outside the session logic this models). -/
def send_sync_from_connection (M : StreamModel σ) (cfg : ConfigModel)
    (b64 : Str → Str) (s : σ) (log : List Str)
    (mailFrom mailTo formattedMail : Str) :
    Except Error Unit × σ × List Str :=
  match send_ehlo M s cfg.domain false with
  | (Except.error e, s) => (Except.error e, s, log)
  | (Except.ok starttls, s) =>
    sendSyncTlsStep M cfg b64 s log starttls mailFrom mailTo formattedMail

/-- A concrete transport used to instantiate the stream-model theorems: a
queue of pending parsed replies plus a transcript of everything sent. -/
structure CStream where
  replies : List HttpStatusMessage
  sent : List Str
  deriving DecidableEq

/-- The concrete transport's operations: `send` appends to the transcript
and always succeeds, `read` pops the next queued reply (failing on an
empty queue, as `secure_read` does on an empty burst), `readQued` returns
no replies, and the stream is insecure with a trivial upgrade. -/
def cModel : StreamModel CStream where
  send := fun s m => (none, ⟨s.replies, s.sent ++ [m]⟩)
  read := fun s =>
    match s.replies with
    | [] => (Except.error (.Other (strL "Invalid response format from server")), s)
    | r :: rest => (Except.ok r, ⟨rest, s.sent⟩)
  readQued := fun s => (Except.ok [], s)
  isSecure := fun _ => false
  upgrade := fun s => Except.ok s

/-- The body canonicalization the specification (and RFC 6376, which the
code's own comments cite) prescribes for an empty body: the empty string. -/
def specEmptyBodyCanonical : Str := []

/-- C1.  The body-canonicalization slip: `canonicalize_body_relaxed` maps
the empty body to a single CRLF (`utils.rs` lines 39-41), although the
function's own comments (lines 86-96, quoting RFC 6376) and its
unreachable `result.is_empty() && body.is_empty()` branch prescribe the
empty string.  A non-empty all-whitespace body does canonicalize to a
single CRLF as claimed. -/
theorem canonicalize_body_empty_eval :
    canonicalize_body_relaxed [] = crlf ∧ crlf ≠ specEmptyBodyCanonical ∧
    canonicalize_body_relaxed (strL "  \r\n  \r\n") = crlf := by
  refine ⟨rfl, by decide, ?_⟩
  decide

/-- C2.  In state `DataSent` the terminator chunk `"\r\n.\r\n"` queues no
reply and does not advance the state: `process_command` trims the input
before testing `ends_with("\r\n.\r\n")` (`io.rs` lines 56 and 114), and a
trimmed string never ends in CRLF, so the arm that should queue the 250
reply and move to `MessageReceived` can never fire. -/
theorem mock_dataSent_terminator_ignored :
    processCommand ⟨.DataSent, false⟩ (strL "\r\n.\r\n") = (⟨.DataSent, false⟩, []) := by
  decide

/-- C5 counterexample.  A `HELO` command in state `Initial` is not
accepted by the mock server: it queues the generic 500 reply and the
state stays `Initial` (only `EHLO` matches the guard at `io.rs` line 61),
contradicting the claim that any EHLO/HELO transitions to `EhloSent`. -/
theorem mock_initial_helo_rejected :
    processCommand ⟨.Initial, false⟩ (strL "HELO client.example\r\n") =
      (⟨.Initial, false⟩,
       [strL "500 Unknown command or state error: HELO CLIENT.EXAMPLE in Initial\r\n"]) := by
  decide

/-- C5 (amended).  In state `Initial`, any EHLO command transitions the
mock server to `EhloSent` and queues the capability reply advertising
`AUTH LOGIN PLAIN`, with `STARTTLS` offered exactly when simulated TLS is
not yet active (a generic `250 OK` otherwise). -/
theorem mock_initial_ehlo_capabilities (input : Str) (tls : Bool)
    (h : strStarts (rustToUpper (rustTrim input)) (strL "EHLO") = true) :
    processCommand ⟨.Initial, tls⟩ input =
      (⟨.EhloSent, tls⟩,
       [strL "250-localhost.testmode Hello\r\n", strL "250-AUTH LOGIN PLAIN\r\n"] ++
       (if !tls then [strL "250 STARTTLS\r\n"] else [strL "250 OK\r\n"])) := by
  simp only [processCommand, h, if_true]

/-- C5 witness: the amended theorem applied to a concrete EHLO command
with TLS not yet active. -/
theorem mock_initial_ehlo_capabilities_witness :
    processCommand ⟨.Initial, false⟩ (strL "EHLO client.example\r\n") =
      (⟨.EhloSent, false⟩,
       [strL "250-localhost.testmode Hello\r\n", strL "250-AUTH LOGIN PLAIN\r\n",
        strL "250 STARTTLS\r\n"]) := by
  have h := mock_initial_ehlo_capabilities (strL "EHLO client.example\r\n") false (by decide)
  simpa using h

/-- C6.  The success classifier accepts exactly the codes in [200, 354);
in particular 354 itself is not classified as a success. -/
theorem is_http_ok_range :
    (∀ c m, (HttpStatusMessage.mk c m).is_http_ok = true ↔ 200 ≤ c ∧ c < 354) ∧
    (∀ m, (HttpStatusMessage.mk 354 m).is_http_ok = false) := by
  constructor
  · intro c m
    simp [HttpStatusMessage.is_http_ok, and_comm, ge_iff_le]
  · intro m
    simp [HttpStatusMessage.is_http_ok]

/-- C6 witness: the classifier accepts code 250. -/
theorem is_http_ok_range_witness : (HttpStatusMessage.mk 250 []).is_http_ok = true :=
  (is_http_ok_range.1 250 []).mpr (by decide)

theorem splitOnChar_ne_nil (sep : Char) (s : Str) : splitOnChar sep s ≠ [] := by
  induction s with
  | nil => simp [splitOnChar]
  | cons c cs ih =>
    simp only [splitOnChar]
    cases h : splitOnChar sep cs with
    | nil => simp
    | cons p ps => by_cases hc : c = sep <;> simp [hc]

theorem splitOnChar_no_occ {sep : Char} {s : Str} (h : sep ∉ s) :
    splitOnChar sep s = [s] := by
  induction s with
  | nil => rfl
  | cons c cs ih =>
    simp only [List.mem_cons, not_or] at h
    have hc : ¬ c = sep := fun hcc => h.1 hcc.symm
    simp only [splitOnChar, ih h.2, if_neg hc]

theorem splitOnChar_append {sep : Char} {a : Str} (b : Str) (h : sep ∉ a) :
    splitOnChar sep (a ++ sep :: b) = a :: splitOnChar sep b := by
  induction a with
  | nil =>
    simp only [List.nil_append, splitOnChar]
    cases hb : splitOnChar sep b with
    | nil => exact absurd hb (splitOnChar_ne_nil sep b)
    | cons p ps => simp
  | cons c cs ih =>
    simp only [List.mem_cons, not_or] at h
    have hc : ¬ c = sep := fun hcc => h.1 hcc.symm
    have ihcs := ih h.2
    simp only [List.cons_append, splitOnChar, List.append_eq, ihcs, if_neg hc]

theorem splitOnChar_length (sep : Char) (s : Str) :
    (splitOnChar sep s).length = countChar sep s + 1 := by
  induction s with
  | nil => simp [splitOnChar, countChar]
  | cons c cs ih =>
    simp only [splitOnChar, countChar]
    cases h : splitOnChar sep cs with
    | nil => exact absurd h (splitOnChar_ne_nil sep cs)
    | cons p ps =>
      rw [h] at ih
      by_cases hc : c = sep
      · simp only [if_pos hc, List.length_cons] at ih ⊢
        omega
      · simp only [if_neg hc, List.length_cons] at ih ⊢
        omega

/-- C7.  Domain extraction: with exactly one `@` (written as the split
point between two `@`-free parts) the substring after the `@` is
returned; with any other number of `@`s the invalid-address error is
returned. -/
theorem extract_domain_spec :
    (∀ a b : Str, '@' ∉ a → '@' ∉ b →
       extract_domain (a ++ '@' :: b) = Except.ok b) ∧
    (∀ s : Str, countChar '@' s ≠ 1 →
       extract_domain s =
         Except.error (.InvalidMailContent (strL "Invalid email address: " ++ s))) := by
  constructor
  · intro a b ha hb
    unfold extract_domain
    rw [splitOnChar_append b ha, splitOnChar_no_occ hb]
    simp
  · intro s h
    unfold extract_domain
    have hlen := splitOnChar_length '@' s
    have hne : ¬ (splitOnChar '@' s).length = 2 := by omega
    simp [hne]

/-- C7 witness: the theorem applied to `user@example.com` (one `@`) and
`invalid-email` (no `@`). -/
theorem extract_domain_spec_witness :
    extract_domain (strL "user@example.com") = Except.ok (strL "example.com") ∧
    extract_domain (strL "invalid-email") =
      Except.error (.InvalidMailContent (strL "Invalid email address: invalid-email")) := by
  constructor
  · exact extract_domain_spec.1 (strL "user") (strL "example.com") (by decide) (by decide)
  · exact extract_domain_spec.2 (strL "invalid-email") (by decide)

theorem replaceChar_no_occ {s : Str} {c : Char} {rep : Str} (h : c ∉ s) :
    replaceChar s c rep = s := by
  induction s with
  | nil => rfl
  | cons x xs ih =>
    simp only [List.mem_cons, not_or] at h
    have hx : ¬ x = c := fun hxc => h.1 hxc.symm
    simp only [replaceChar, if_neg hx, ih h.2, List.singleton_append]

theorem strHas_of_nl_mem {s : Str} (h : '\n' ∈ s) :
    strHas (replaceChar s '\n' crlf) crlf = true := by
  induction s with
  | nil => cases h
  | cons x xs ih =>
    by_cases hx : x = '\n'
    · subst hx
      simp [replaceChar, crlf, strHas, strStarts]
    · have hmem : '\n' ∈ xs := by
        cases List.mem_cons.mp h with
        | inl h1 => exact absurd h1.symm hx
        | inr h2 => exact h2
      simp only [replaceChar, if_neg hx, List.singleton_append]
      simp [strHas, ih hmem]

/-- C8.  `ensure_crlf` is idempotent: a string containing CRLF is
returned unchanged, and a string without CRLF either gains CRLFs from its
bare LFs (so the second pass leaves it alone) or has no LF at all (so the
replacement is the identity). -/
theorem ensure_crlf_idempotent (s : Str) :
    ensure_crlf (ensure_crlf s) = ensure_crlf s := by
  by_cases h : strHas s crlf = true
  · simp [ensure_crlf, h]
  · have h' : strHas s crlf = false := by
      cases hb : strHas s crlf with
      | false => rfl
      | true => exact absurd hb h
    by_cases hn : '\n' ∈ s
    · have ht := strHas_of_nl_mem hn
      simp [ensure_crlf, h', ht]
    · have hr : replaceChar s '\n' crlf = s := replaceChar_no_occ hn
      simp [ensure_crlf, h', hr]

/-- C10.  A string already containing a CRLF is returned unchanged by
`ensure_crlf` (even when it also has bare LFs); only a string with no
CRLF at all has its LFs rewritten to CRLF. -/
theorem ensure_crlf_only_when_no_crlf :
    (∀ s : Str, strHas s crlf = true → ensure_crlf s = s) ∧
    (∀ s : Str, strHas s crlf = false →
       ensure_crlf s = replaceChar s '\n' crlf) := by
  constructor
  · intro s h
    simp [ensure_crlf, h]
  · intro s h
    simp [ensure_crlf, h]

/-- C10 witness: a mixed-ending string (one CRLF, one bare LF) passes
through unchanged, so the bare LF is left unconverted. -/
theorem ensure_crlf_only_when_no_crlf_witness :
    strHas (strL "a\r\nb\nc") crlf = true ∧
    ensure_crlf (strL "a\r\nb\nc") = strL "a\r\nb\nc" :=
  ⟨by decide, ensure_crlf_only_when_no_crlf.1 (strL "a\r\nb\nc") (by decide)⟩

/-- C9.  The reply-line parser: any input whose trimmed form is shorter
than four characters (such as a bare `250`) is dropped, and a parsed
reply takes its code from the first three trimmed characters and its
message from index 4 on, discarding the character at index 3. -/
theorem from_str_spec :
    (∀ s : Str, (rustTrim s).length < 4 → HttpStatusMessage.from_str s = none) ∧
    HttpStatusMessage.from_str (strL "250") = none ∧
    (∀ (s : Str) (r : HttpStatusMessage), HttpStatusMessage.from_str s = some r →
       parseU16 ((rustTrim s).take 3) = some r.code ∧
       r.message = (rustTrim s).drop 4) := by
  refine ⟨?_, by decide, ?_⟩
  · intro s h
    simp [HttpStatusMessage.from_str, h]
  · intro s r h
    unfold HttpStatusMessage.from_str at h
    by_cases hl : (rustTrim s).length < 4
    · simp [hl] at h
    · simp only [if_neg hl] at h
      cases hp : parseU16 ((rustTrim s).take 3) with
      | none => rw [hp] at h; cases h
      | some code =>
        rw [hp] at h
        cases h
        exact ⟨rfl, rfl⟩

/-- C9 witness: the theorem applied to the short input `250` and to a
parsed concrete reply line. -/
theorem from_str_spec_witness :
    HttpStatusMessage.from_str (strL " 250 ") = none ∧
    (parseU16 ((rustTrim (strL "250 OK")).take 3) = some 250 ∧
     (strL "OK") = (rustTrim (strL "250 OK")).drop 4) :=
  ⟨from_str_spec.1 (strL " 250 ") (by decide),
   from_str_spec.2.2 (strL "250 OK") ⟨250, strL "OK"⟩ (by decide)⟩

/-- C3.  `process_mail` returns exactly the inner transaction's result:
whatever `process_mail_internal` produced, the outer wrapper sends QUIT
on the stream (its own failure discarded), appends the QUIT log entry,
and passes the inner result through unchanged. -/
theorem process_mail_always_quits (σ : Type) (M : StreamModel σ) (s : σ)
    (log : List Str) (mailFrom mailTo mail : Str)
    (r : Except Error Unit) (s₁ : σ) (l₁ : List Str)
    (h : process_mail_internal M s log mailFrom mailTo mail = (r, s₁, l₁)) :
    process_mail M s log mailFrom mailTo mail =
      (r, (M.send s₁ (strL "QUIT\r\n")).2, l₁ ++ [strL "QUIT"]) := by
  simp [process_mail, h]

/-- C3 witness: on a concrete transport whose reply queue is empty, the
inner transaction fails at the first read, yet the returned error is the
inner one, QUIT is written to the stream and logged. -/
theorem process_mail_always_quits_witness :
    process_mail cModel ⟨[], []⟩ [] (strL "a@b.co") (strL "c@d.co") (strL "hi") =
      (Except.error (.Other (strL "Invalid response format from server")),
       ⟨[], [strL "MAIL FROM:<a@b.co>\r\n", strL "QUIT\r\n"]⟩,
       [strL "MAIL FROM:<a@b.co>\r\n", strL "QUIT"]) :=
  process_mail_always_quits CStream cModel ⟨[], []⟩ []
    (strL "a@b.co") (strL "c@d.co") (strL "hi")
    (Except.error (.Other (strL "Invalid response format from server")))
    ⟨[], [strL "MAIL FROM:<a@b.co>\r\n"]⟩
    [strL "MAIL FROM:<a@b.co>\r\n"]
    rfl

/-- C4 counterexample.  With a concrete transport whose greeting is a 554
reply, the send aborts with the protocol failure carrying code 554 — but
the transcript of everything written to the stream is empty: no QUIT (or
anything else) is ever sent on this path, refuting the claim's second
half. -/
theorem greeting_failure_no_quit_counterexample :
    (send_sync_from_connection cModel ⟨strL "client.example", false, none⟩ id
        ⟨[⟨554, strL "go away"⟩], []⟩ [] (strL "a@b.co") (strL "c@d.co")
        (strL "msg")).1 =
      Except.error (.SmtpError 554 (strL "Server did not send welcome message: go away")) ∧
    (send_sync_from_connection cModel ⟨strL "client.example", false, none⟩ id
        ⟨[⟨554, strL "go away"⟩], []⟩ [] (strL "a@b.co") (strL "c@d.co")
        (strL "msg")).2.1.sent = [] :=
  ⟨rfl, rfl⟩

/-- C4 (amended).  A non-success greeting aborts the send with a protocol
failure carrying the greeting's code, and the engine performs no further
stream operation — in particular no QUIT is issued on this path (the QUIT
wrapper applies only to the mail transaction). -/
theorem greeting_failure_aborts_without_quit (σ : Type) (M : StreamModel σ)
    (cfg : ConfigModel) (b64 : Str → Str) (s : σ) (log : List Str)
    (mailFrom mailTo formattedMail : Str) (r : HttpStatusMessage) (s₁ : σ)
    (hread : M.read s = (Except.ok r, s₁))
    (hfail : r.is_http_ok = false) :
    send_sync_from_connection M cfg b64 s log mailFrom mailTo formattedMail =
      (Except.error (.SmtpError r.code
        (strL "Server did not send welcome message: " ++ r.message)), s₁, log) := by
  simp [send_sync_from_connection, send_ehlo, hread, hfail]

/-- C4 witness: the amended theorem applied to the concrete transport
with a queued 554 greeting. -/
theorem greeting_failure_aborts_without_quit_witness :
    send_sync_from_connection cModel ⟨strL "client.example", false, none⟩ id
        ⟨[⟨554, strL "bad"⟩], []⟩ [] (strL "a@b.co") (strL "c@d.co") (strL "m") =
      (Except.error (.SmtpError 554 (strL "Server did not send welcome message: bad")),
       ⟨[], []⟩, []) :=
  greeting_failure_aborts_without_quit CStream cModel
    ⟨strL "client.example", false, none⟩ id ⟨[⟨554, strL "bad"⟩], []⟩ []
    (strL "a@b.co") (strL "c@d.co") (strL "m") ⟨554, strL "bad"⟩ ⟨[], []⟩
    rfl (by decide)

end Micromail
